import Mathlib

/-!
Shallow embedding of the workflow engine of the multi-agent orchestrator
repository (`src/core/orchestrator.py`, `src/models/task.py`,
`src/core/agent.py`, `src/core/template_loader.py`).

Modelling conventions:
* Python `dict`s keyed by phase name become association lists with
  dictionary semantics (`assocLookup`, `assocInsert`, `assocErase`).
* The external execution capability (the coding-agent SDK call), the
  filesystem probes of the result evaluator and the wall clock are I/O;
  they enter as oracles (`ExecEnv.exec`, `ExecEnv.devOk`,
  `ExecEnv.reportBugs`) indexed by the number of capability calls made so
  far (`ExecState.counter`).
* `asyncio.sleep(2)` between block attempts is recorded by appending `2`
  to `ExecState.delays`.
* Logging and `print` calls have no effect on control flow and are
  dropped; timestamps in retry history entries are likewise dropped.
-/

/-- Character-list version of a prefix test, used to embed Python's
substring operator. -/
def listStartsWith : List Char → List Char → Bool
  | [], _ => true
  | _ :: _, [] => false
  | a :: as, b :: bs => a == b && listStartsWith as bs

/-- `listHasSub needle hay` is true iff `needle` occurs contiguously in
`hay`. -/
def listHasSub (needle : List Char) : List Char → Bool
  | [] => listStartsWith needle []
  | c :: cs => listStartsWith needle (c :: cs) || listHasSub needle cs

/-- Python `needle in hay` on strings: substring test. -/
def strContains (hay needle : String) : Bool :=
  listHasSub needle.toList hay.toList

/-- Python `s.endswith(t)`, used by `_find_task_for_phase`. -/
def strEndsWith (s suffix : String) : Bool :=
  listStartsWith suffix.toList.reverse s.toList.reverse

/-- Python `s.lower()` on the ASCII phase names and outputs the engine
handles; structurally recursive so concrete runs reduce in the kernel
(core `String.toLower` is well-founded recursion, which does not). -/
def lowerStr (s : String) : String :=
  String.mk (s.toList.map Char.toLower)

/-- `models.task.AgentRole`. -/
inductive AgentRole where
  | pm
  | ui_designer
  | python_developer
  | tester
  | security_engineer
  deriving DecidableEq

/-- Python `AgentRole(name)`: `some` on a valid enum value, `none` models
the `ValueError` branch. -/
def agentRoleOfName : String → Option AgentRole
  | "pm" => some .pm
  | "ui_designer" => some .ui_designer
  | "python_developer" => some .python_developer
  | "tester" => some .tester
  | "security_engineer" => some .security_engineer
  | _ => none

/-- `models.task.AgentTask` (the `__post_init__` fallback task id is
irrelevant here: `create_agent_tasks` always supplies one). -/
structure AgentTask where
  role : AgentRole
  prompt : String
  task_id : String := ""
  dependencies : List AgentRole := []
  output_file : Option String := none
  context_files : List String := []
  deriving DecidableEq

/-- `models.task.AgentResult`; the `execution_log` payload is logging-only
and omitted. -/
structure AgentResult where
  role : AgentRole
  success : Bool
  output : String
  task_id : String := ""
  artifacts : List String := []
  errors : Option String := none
  retry_count : Nat := 0
  requires_retry : Bool := false
  retry_reason : Option String := none
  deriving DecidableEq

/-- `AgentResult.set_retry_required`. -/
def AgentResult.set_retry_required (r : AgentResult) (reason : String) : AgentResult :=
  { r with requires_retry := true, retry_reason := some reason }

/-- One entry of `PhaseRetryTracker.retry_history`; the wall-clock
timestamp field is dropped. -/
structure RetryRecord where
  attempt : Nat
  triggered_by : String
  reason : String
  deriving DecidableEq

/-- `models.task.PhaseRetryTracker`. -/
structure PhaseRetryTracker where
  phase_name : String
  retry_count : Nat := 0
  max_retries : Nat := 3
  retry_history : List RetryRecord := []
  triggered_by : Option String := none
  retry_reason : Option String := none
  deriving DecidableEq

/-- `PhaseRetryTracker.can_retry`. -/
def PhaseRetryTracker.can_retry (t : PhaseRetryTracker) : Bool :=
  t.retry_count < t.max_retries

/-- `PhaseRetryTracker.add_retry_attempt`. -/
def PhaseRetryTracker.add_retry_attempt (t : PhaseRetryTracker) (tb reason : String) :
    PhaseRetryTracker :=
  { t with
    retry_count := t.retry_count + 1
    triggered_by := some tb
    retry_reason := some reason
    retry_history := t.retry_history ++ [⟨t.retry_count + 1, tb, reason⟩] }

/-- Association-list lookup with Python-dict semantics. -/
def assocLookup {α : Type} : List (String × α) → String → Option α
  | [], _ => none
  | (k, v) :: rest, key => if k = key then some v else assocLookup rest key

/-- Association-list update with Python-dict semantics
(`d[key] = v`). -/
def assocInsert {α : Type} : List (String × α) → String → α → List (String × α)
  | [], key, v => [(key, v)]
  | (k, w) :: rest, key, v =>
    if k = key then (key, v) :: rest else (k, w) :: assocInsert rest key v

/-- Association-list deletion with Python-dict semantics (`del d[key]`,
a no-op when the key is absent). -/
def assocErase {α : Type} : List (String × α) → String → List (String × α)
  | [], _ => []
  | (k, w) :: rest, key =>
    if k = key then assocErase rest key else (k, w) :: assocErase rest key

/-- One entry of `template.workflow['phases']`: the fields the engine
reads (`phase`, `agent`, `dependencies`; the declared `parallel` flag is
never read by the executor and is omitted). -/
structure TemplatePhase where
  phase : String
  agent : String
  dependencies : List String := []
  deriving DecidableEq

/-- One entry of the template's `tasks` catalog. -/
structure TaskInfo where
  agent : String := ""
  title : String := ""
  prompt : String := ""
  output_files : List String := []
  context_files : List String := []
  deriving DecidableEq

/-- `template_loader.TemplateLoader.create_agent_tasks`: walks the phase
list in order; a phase with no task-catalog entry or an unavailable or
invalid agent role is skipped (warn-and-continue in the source). -/
def create_agent_tasks (available_roles : List String)
    (tasks_catalog : List (String × TaskInfo)) : List TemplatePhase → List AgentTask
  | [] => []
  | ph :: rest =>
    match assocLookup tasks_catalog ph.phase with
    | none => create_agent_tasks available_roles tasks_catalog rest
    | some ti =>
      if available_roles.contains ph.agent = false then
        create_agent_tasks available_roles tasks_catalog rest
      else
        match agentRoleOfName ph.agent with
        | none => create_agent_tasks available_roles tasks_catalog rest
        | some role =>
          { role := role
            prompt := ti.prompt
            task_id := ph.agent ++ "_" ++ ph.phase
            dependencies :=
              (ph.dependencies.filter (fun d => available_roles.contains d)).filterMap
                agentRoleOfName
            output_file := ti.output_files.head?
            context_files := ti.context_files } :: create_agent_tasks available_roles tasks_catalog rest

/-- `MultiAgentOrchestrator._find_task_for_phase`. -/
def find_task_for_phase (tasks : List AgentTask) (phase_name : String) : Option AgentTask :=
  tasks.find? (fun t => strEndsWith t.task_id ("_" ++ phase_name))

/-- `MultiAgentOrchestrator._check_dependencies`. -/
def check_dependencies : List String → List (String × AgentResult) → Bool
  | [], _ => true
  | d :: ds, results =>
    match assocLookup results d with
    | none => false
    | some r => if r.success then check_dependencies ds results else false

/-- Keyword list of `MultiAgentOrchestrator._is_testing_phase`. -/
def testing_keywords : List String := ["test", "testing", "qa", "verification"]

/-- `MultiAgentOrchestrator._is_testing_phase`. -/
def is_testing_phase (phase_name : String) : Bool :=
  testing_keywords.any (fun k => strContains (lowerStr phase_name) k)

/-- Indicator vocabulary of `_analyze_test_results`. -/
def bug_indicators : List (String × String) :=
  [("failed", "test failures detected"),
   ("error", "errors found in testing"),
   ("exception", "exceptions during testing"),
   ("bug", "bugs identified"),
   ("issue", "issues found"),
   ("problem", "problems detected"),
   ("fix", "fixes needed")]

/-- `MultiAgentOrchestrator._analyze_test_results`; the scan of test
report artifact files on disk is I/O and enters as the already-computed
`report_findings` oracle, appended after the indicator findings exactly
as the source appends them. -/
def analyze_test_results (r : AgentResult) (report_findings : List String) : List String :=
  (bug_indicators.filterMap
    (fun pr => if strContains (lowerStr r.output) pr.1 then some pr.2 else none))
    ++ report_findings

/-- Python f-string rendering of an `Optional[str]`. -/
def optStr : Option String → String
  | none => "None"
  | some s => s

/-- The post-execution evaluation chain of
`MultiAgentOrchestrator._execute_phase` (the three `set_retry_required`
branches); `dev_ok` is the I/O oracle for
`_validate_development_result`. -/
def evaluate_result (phase_name : String) (r : AgentResult) (dev_ok : Bool)
    (report_findings : List String) : AgentResult :=
  if r.success = false then
    r.set_retry_required ("Phase execution failed: " ++ optStr r.errors)
  else if is_testing_phase phase_name then
    let bugs := analyze_test_results r report_findings
    if bugs = [] then r
    else r.set_retry_required ("Bugs found during testing: " ++ String.intercalate ", " bugs)
  else if (["development", "bug_fixing"] : List String).contains (lowerStr phase_name) then
    if dev_ok then r
    else r.set_retry_required "Development validation failed - code has runtime errors"
  else r

/-- Keyword lists of `_define_workflow_blocks`. -/
def planning_keywords : List String := ["planning", "concept"]

def design_keywords : List String := ["ui", "design", "wireframe", "schema", "database_design"]

def dev_test_keywords : List String :=
  ["development", "dev", "test", "testing", "qa", "bug_fixing", "retesting"]

def security_keywords : List String := ["security", "audit"]

/-- `any(keyword in p.lower() for keyword in kws)`. -/
def matchesAnyKw (p : String) (kws : List String) : Bool :=
  kws.any (fun k => strContains (lowerStr p) k)

/-- `MultiAgentOrchestrator._define_workflow_blocks`: each category is an
independent filter of the full phase list (a phase can land in several
blocks); uncovered phases go to `misc`.  The source builds `misc` from a
Python set difference; membership-wise this equals the order-preserving
filter used here. -/
def define_workflow_blocks (all_phases : List String) : List (String × List String) :=
  let planning_phases := all_phases.filter (fun p => matchesAnyKw p planning_keywords)
  let ui_phases := all_phases.filter (fun p => matchesAnyKw p design_keywords)
  let dev_test_phases := all_phases.filter (fun p => matchesAnyKw p dev_test_keywords)
  let security_phases := all_phases.filter (fun p => matchesAnyKw p security_keywords)
  let uncovered := all_phases.filter
    (fun p => !(matchesAnyKw p planning_keywords || matchesAnyKw p design_keywords
      || matchesAnyKw p dev_test_keywords || matchesAnyKw p security_keywords))
  (if planning_phases = [] then [] else [("planning_no_retry", planning_phases)])
    ++ (if ui_phases = [] then [] else [("design", ui_phases)])
    ++ (if dev_test_phases = [] then [] else [("development_testing", dev_test_phases)])
    ++ (if security_phases = [] then [] else [("security", security_phases)])
    ++ (if uncovered = [] then [] else [("misc", uncovered)])

/-- `MultiAgentOrchestrator._get_phase_info`. -/
def get_phase_info (phases : List TemplatePhase) (phase_name : String) : Option TemplatePhase :=
  phases.find? (fun info => info.phase == phase_name)

/-- The mutable executor state threaded by the orchestrator object:
`self.results`, `self.retry_trackers`, the number of capability calls
made so far, and the log of retry sleeps. -/
structure ExecState where
  results : List (String × AgentResult)
  trackers : List (String × PhaseRetryTracker)
  counter : Nat
  delays : List Nat
  deriving DecidableEq

/-- The static data and I/O oracles the executor consults: the template's
phase list, whether `_find_task_for_phase` finds a task, and per-call
oracles for the external capability and the evaluator's filesystem
probes. -/
structure ExecEnv where
  phases : List TemplatePhase
  hasTask : String → Bool
  exec : Nat → String → AgentResult
  devOk : Nat → Bool
  reportBugs : Nat → List String

/-- `MultiAgentOrchestrator._execute_phase`: one capability call followed
by the evaluation chain; the (evaluated) result is stored under the phase
name, overwriting any previous entry. -/
def execute_phase (env : ExecEnv) (st : ExecState) (phase_name : String) : ExecState :=
  let raw := env.exec st.counter phase_name
  let evaluated := evaluate_result phase_name raw (env.devOk st.counter) (env.reportBugs st.counter)
  { st with
    results := assocInsert st.results phase_name evaluated
    counter := st.counter + 1 }

/-- One block attempt: the inner `for phase_name in block_phases` loop of
`_execute_workflow_with_retries`.  Returns the state together with
`some failed_phase` when the attempt failed (`block_success = False`). -/
def run_attempt (env : ExecEnv) : List String → ExecState → ExecState × Option String
  | [], st => (st, none)
  | p :: ps, st =>
    match get_phase_info env.phases p with
    | none => run_attempt env ps st
    | some info =>
      if check_dependencies info.dependencies st.results = false then
        run_attempt env ps st
      else if env.hasTask p then
        let st1 := execute_phase env st p
        match assocLookup st1.results p with
        | some r => if r.success then run_attempt env ps st1 else (st1, some p)
        | none => (st1, some p)
      else
        (st, some p)

/-- The `for phase_name in block_phases: del self.results[phase_name]`
clearing step of the retry path. -/
def clear_block_results : List String → List (String × AgentResult) → List (String × AgentResult)
  | [], m => m
  | p :: ps, m => clear_block_results ps (assocErase m p)

/-- The two fatal aborts of `_execute_workflow_with_retries`, carrying
the block and failing phase named in the raised exception messages. -/
inductive WorkflowError where
  | noRetry (block : String) (phase : String)
  | exhausted (block : String) (phase : String)
  deriving DecidableEq

/-- The `while retry_count < effective_max_retries` loop for one block;
the fuel argument is the number of attempts still allowed
(`effective_max_retries - retry_count`).  Errors carry the executor state
at raise time (`self.results` survives the raised exception in the
source). -/
def run_block (env : ExecEnv) (block_name : String) (is_no_retry : Bool)
    (block_phases : List String) : Nat → ExecState → Except (WorkflowError × ExecState) ExecState
  | 0, st => .ok st
  | fuel + 1, st =>
    match run_attempt env block_phases st with
    | (st1, none) => .ok st1
    | (st1, some fp) =>
      if is_no_retry then .error (.noRetry block_name fp, st1)
      else if fuel > 0 then
        run_block env block_name is_no_retry block_phases fuel
          { st1 with
            results := clear_block_results block_phases st1.results
            delays := st1.delays ++ [2] }
      else .error (.exhausted block_name fp, st1)

/-- The outer block loop of `_execute_workflow_with_retries`:
`max_block_retries = 5`, `effective_max_retries = 1` iff `'no_retry' in
block_name`. -/
def run_blocks (env : ExecEnv) :
    List (String × List String) → ExecState → Except (WorkflowError × ExecState) ExecState
  | [], st => .ok st
  | (bn, bp) :: rest, st =>
    match run_block env bn (strContains bn "no_retry") bp
        (if strContains bn "no_retry" then 1 else 5) st with
    | .ok st1 => run_blocks env rest st1
    | .error e => .error e

/-- Tracker initialisation at the top of `execute_workflow`
(`max_retries = getattr(self, 'max_cross_phase_retries', 3)`, and the
attribute is never set, so the ceiling is 3). -/
def init_trackers (phases : List TemplatePhase) : List (String × PhaseRetryTracker) :=
  phases.map (fun info => (info.phase, { phase_name := info.phase, max_retries := 3 }))

/-- `MultiAgentOrchestrator.execute_workflow` on a freshly constructed
orchestrator: empty result map, fresh trackers, then the block-retry
loop over `_define_workflow_blocks`. -/
def execute_workflow (env : ExecEnv) : Except (WorkflowError × ExecState) ExecState :=
  run_blocks env (define_workflow_blocks (env.phases.map (fun info => info.phase)))
    { results := [], trackers := init_trackers env.phases, counter := 0, delays := [] }

/-- The payload returned by `_run_claude_code_sdk` on success. -/
structure RunOutput where
  output : String
  artifacts : List String
  deriving DecidableEq

/-- `ClaudeCodeAgent.execute_task`: the success path wraps the SDK
payload, any raised exception is caught and wrapped into a failure
result with empty output, empty artifact list and the exception text as
`errors`. -/
def execute_task (role : AgentRole) (task_id : String)
    (outcome : Except String RunOutput) : AgentResult :=
  match outcome with
  | .ok r =>
    { role := role, success := true, output := r.output, task_id := task_id,
      artifacts := r.artifacts }
  | .error msg =>
    { role := role, success := false, output := "", task_id := task_id,
      errors := some msg }

/-- A successful raw capability result used in concrete runs. -/
def resultOk (out : String) : AgentResult :=
  { role := .python_developer, success := true, output := out }

/-- A failed raw capability result used in concrete runs. -/
def resultFail (msg : String) : AgentResult :=
  { role := .tester, success := false, output := "", errors := some msg }

/-- The executor state of a freshly constructed orchestrator with no
template phases. -/
def stInit : ExecState :=
  { results := [], trackers := [], counter := 0, delays := [] }

/-- Concrete workflow for the retry scenario: a retryable
development-and-testing block `[development, testing]` whose capability
succeeds on call 0 (development, attempt 1), fails on call 1 (testing,
attempt 1) and succeeds on calls 2 and 3 (attempt 2). -/
def envC2 : ExecEnv :=
  { phases := [{ phase := "development", agent := "python_developer" },
               { phase := "testing", agent := "tester", dependencies := ["development"] }]
    hasTask := fun _ => true
    exec := fun n _ =>
      if n = 0 then resultOk "ok A1"
      else if n = 1 then resultFail "boom"
      else if n = 2 then resultOk "ok A2"
      else resultOk "all good"
    devOk := fun _ => true
    reportBugs := fun _ => [] }

/-- Concrete workflow whose single phase `testing` declares a dependency
on a phase that never produces a result, so the dependency gate skips it
on every attempt. -/
def envC5 : ExecEnv :=
  { phases := [{ phase := "testing", agent := "tester", dependencies := ["development"] }]
    hasTask := fun _ => true
    exec := fun _ _ => resultOk "all good"
    devOk := fun _ => true
    reportBugs := fun _ => [] }

/-- Environment with a single phase that has no matching task
(`hasTask` is constantly false), used to exercise the missing-task
failure branch. -/
def envW : ExecEnv :=
  { phases := [{ phase := "misc1", agent := "pm" }]
    hasTask := fun _ => false
    exec := fun _ _ => resultOk "ok"
    devOk := fun _ => true
    reportBugs := fun _ => [] }

/-- Environment with a single testing phase whose capability reports
success but whose output contains a bug indicator, so the evaluator
flags `requires_retry` on a successful result. -/
def envW6 : ExecEnv :=
  { phases := [{ phase := "testing", agent := "tester" }]
    hasTask := fun _ => true
    exec := fun _ _ => { role := .tester, success := true, output := "error found" }
    devOk := fun _ => true
    reportBugs := fun _ => [] }

/-- Template with a single `planning` phase and an empty task catalog:
task compilation skips the phase, so execution finds no task for it. -/
def tplPhasesC8 : List TemplatePhase := [{ phase := "planning", agent := "pm" }]

/-- The compiled task list for `tplPhasesC8` (empty: the phase has no
task-catalog entry). -/
def tasksC8 : List AgentTask := create_agent_tasks ["pm"] [] tplPhasesC8

/-- Executor environment built on `tplPhasesC8`, with `hasTask` wired to
`_find_task_for_phase` over the compiled task list. -/
def envC8 : ExecEnv :=
  { phases := tplPhasesC8
    hasTask := fun p => (find_task_for_phase tasksC8 p).isSome
    exec := fun _ _ => resultOk "ok"
    devOk := fun _ => true
    reportBugs := fun _ => [] }

theorem assocLookup_insert_self {α : Type} (m : List (String × α)) (k : String) (v : α) :
    assocLookup (assocInsert m k v) k = some v := by
  induction m with
  | nil => simp [assocInsert, assocLookup]
  | cons kv rest ih =>
    obtain ⟨k1, w⟩ := kv
    by_cases h : k1 = k
    · simp [assocInsert, h, assocLookup]
    · simp [assocInsert, h, assocLookup, ih]

theorem assocLookup_insert_ne {α : Type} (m : List (String × α)) (k q : String) (v : α)
    (hq : q ≠ k) : assocLookup (assocInsert m k v) q = assocLookup m q := by
  have hk : k ≠ q := Ne.symm hq
  induction m with
  | nil => simp [assocInsert, assocLookup, hk]
  | cons kv rest ih =>
    obtain ⟨k1, w⟩ := kv
    by_cases h : k1 = k
    · subst h
      simp [assocInsert, assocLookup, hk]
    · simp [assocInsert, h, assocLookup, ih]

theorem assocLookup_insert_isSome {α : Type} (m : List (String × α)) (k q : String) (v : α)
    (h : (assocLookup (assocInsert m k v) q).isSome = true) :
    q = k ∨ (assocLookup m q).isSome = true := by
  by_cases hq : q = k
  · exact Or.inl hq
  · rw [assocLookup_insert_ne m k q v hq] at h
    exact Or.inr h

theorem assocLookup_erase {α : Type} (m : List (String × α)) (k q : String) :
    assocLookup (assocErase m k) q = if q = k then none else assocLookup m q := by
  induction m with
  | nil => simp [assocErase, assocLookup]
  | cons kv rest ih =>
    obtain ⟨k1, w⟩ := kv
    by_cases h : k1 = k
    · subst h
      have e1 : assocErase ((k1, w) :: rest) k1 = assocErase rest k1 := by
        simp [assocErase]
      rw [e1, ih]
      by_cases hq : q = k1
      · simp [hq]
      · simp [hq, assocLookup, Ne.symm hq]
    · have e1 : assocErase ((k1, w) :: rest) k = (k1, w) :: assocErase rest k := by
        simp [assocErase, h]
      rw [e1]
      simp only [assocLookup]
      rw [ih]
      by_cases hq : k1 = q
      · subst hq
        simp [h]
      · simp [hq]

theorem clear_block_results_lookup (phases : List String) :
    ∀ (m : List (String × AgentResult)) (q : String),
      assocLookup (clear_block_results phases m) q
        = if q ∈ phases then none else assocLookup m q := by
  induction phases with
  | nil => intro m q; simp [clear_block_results]
  | cons p ps ih =>
    intro m q
    simp only [clear_block_results]
    rw [ih, assocLookup_erase]
    by_cases hq : q ∈ ps
    · simp [hq]
    · by_cases hp : q = p
      · simp [hq, hp]
      · simp [hq, hp]

theorem execute_phase_lookup (env : ExecEnv) (st : ExecState) (p : String) :
    assocLookup (execute_phase env st p).results p
      = some (evaluate_result p (env.exec st.counter p) (env.devOk st.counter)
          (env.reportBugs st.counter)) := by
  simp [execute_phase, assocLookup_insert_self]

theorem evaluate_result_success (phase_name : String) (r : AgentResult) (dev_ok : Bool)
    (fs : List String) : (evaluate_result phase_name r dev_ok fs).success = r.success := by
  simp only [evaluate_result, AgentResult.set_retry_required]
  repeat' split
  all_goals rfl

theorem run_attempt_results_isSome (env : ExecEnv) :
    ∀ (phases : List String) (st st2 : ExecState) (o : Option String) (q : String),
      run_attempt env phases st = (st2, o) →
      (assocLookup st2.results q).isSome = true →
      (assocLookup st.results q).isSome = true ∨ q ∈ phases := by
  intro phases
  induction phases with
  | nil =>
    intro st st2 o q h hq
    simp only [run_attempt, Prod.mk.injEq] at h
    exact Or.inl (h.1 ▸ hq)
  | cons p ps ih =>
    intro st st2 o q h hq
    simp only [run_attempt] at h
    cases hinfo : get_phase_info env.phases p with
    | none =>
      simp only [hinfo] at h
      rcases ih st st2 o q h hq with h1 | h1
      · exact Or.inl h1
      · exact Or.inr (List.mem_cons_of_mem _ h1)
    | some info =>
      simp only [hinfo] at h
      by_cases hdep : check_dependencies info.dependencies st.results = false
      · rw [if_pos hdep] at h
        rcases ih st st2 o q h hq with h1 | h1
        · exact Or.inl h1
        · exact Or.inr (List.mem_cons_of_mem _ h1)
      · rw [if_neg hdep] at h
        by_cases htask : env.hasTask p = true
        · rw [if_pos htask] at h
          simp only [execute_phase_lookup] at h
          by_cases hsucc : (evaluate_result p (env.exec st.counter p) (env.devOk st.counter)
              (env.reportBugs st.counter)).success = true
          · rw [if_pos hsucc] at h
            rcases ih _ st2 o q h hq with h1 | h1
            · rcases assocLookup_insert_isSome st.results p q _ h1 with h2 | h2
              · exact Or.inr (h2 ▸ List.mem_cons_self p ps)
              · exact Or.inl h2
            · exact Or.inr (List.mem_cons_of_mem _ h1)
          · rw [if_neg hsucc] at h
            simp only [Prod.mk.injEq] at h
            rw [← h.1] at hq
            rcases assocLookup_insert_isSome st.results p q _ hq with h2 | h2
            · exact Or.inr (h2 ▸ List.mem_cons_self p ps)
            · exact Or.inl h2
        · rw [if_neg htask] at h
          simp only [Prod.mk.injEq] at h
          exact Or.inl (h.1 ▸ hq)

theorem run_block_error_shape (env : ExecEnv) (bn : String) (nr : Bool) (bp : List String) :
    ∀ (fuel : Nat) (st : ExecState) (e : WorkflowError) (stE : ExecState),
      run_block env bn nr bp fuel st = .error (e, stE) →
      ∃ st0 fp, run_attempt env bp st0 = (stE, some fp)
        ∧ ((nr = true ∧ e = .noRetry bn fp) ∨ (nr = false ∧ e = .exhausted bn fp)) := by
  intro fuel
  induction fuel with
  | zero => intro st e stE h; simp [run_block] at h
  | succ n ih =>
    intro st e stE h
    rw [run_block] at h
    rcases hatt : run_attempt env bp st with ⟨st1, o⟩
    rw [hatt] at h
    cases o with
    | none => simp at h
    | some fp =>
      cases nr with
      | true =>
        simp only [if_true, Except.error.injEq, Prod.mk.injEq] at h
        exact ⟨st, fp, h.2 ▸ hatt, Or.inl ⟨rfl, h.1.symm⟩⟩
      | false =>
        simp only [Bool.false_eq_true, if_false] at h
        by_cases hn : n > 0
        · rw [if_pos hn] at h
          exact ih _ e stE h
        · rw [if_neg hn] at h
          simp only [Except.error.injEq, Prod.mk.injEq] at h
          exact ⟨st, fp, h.2 ▸ hatt, Or.inr ⟨rfl, h.1.symm⟩⟩

/-- C7: the dependency gate `_check_dependencies` returns true iff every
named dependency is a key of the result map whose stored result has
`success = true`; in particular it returns true on an empty dependency
list whatever the result map.  The embedding is a pure function of its
two arguments, so the check modifies no state. -/
theorem C7_check_dependencies_spec (deps : List String)
    (results : List (String × AgentResult)) :
    (check_dependencies deps results = true
      ↔ ∀ d ∈ deps, ∃ r, assocLookup results d = some r ∧ r.success = true)
  ∧ check_dependencies [] results = true := by
  constructor
  · induction deps with
    | nil => simp [check_dependencies]
    | cons d ds ih =>
      cases hl : assocLookup results d with
      | none =>
        simp only [check_dependencies, hl]
        constructor
        · intro h; simp at h
        · intro h
          obtain ⟨r, hr, _⟩ := h d (List.mem_cons_self d ds)
          rw [hl] at hr
          cases hr
      | some r =>
        simp only [check_dependencies, hl]
        by_cases hs : r.success = true
        · rw [if_pos hs, ih]
          constructor
          · intro h e he
            rcases List.mem_cons.mp he with rfl | he2
            · exact ⟨r, hl, hs⟩
            · exact h e he2
          · intro h e he
            exact h e (List.mem_cons_of_mem d he)
        · rw [if_neg hs]
          constructor
          · intro h; simp at h
          · intro h
            obtain ⟨r2, hr2, hs2⟩ := h d (List.mem_cons_self d ds)
            rw [hl] at hr2
            injection hr2 with h3
            exact absurd (h3 ▸ hs2) hs
  · rfl

/-- C10: every `AgentResult` built by `ClaudeCodeAgent.execute_task`
satisfies: on success `errors` is `none`; on failure `errors` is a
non-`none` error string, `output` is the empty string and the artifact
list is empty. -/
theorem C10_execute_task_invariant (role : AgentRole) (task_id : String)
    (outcome : Except String RunOutput) :
    ((execute_task role task_id outcome).success = true
      → (execute_task role task_id outcome).errors = none)
  ∧ ((execute_task role task_id outcome).success = false
      → (execute_task role task_id outcome).errors ≠ none
        ∧ (execute_task role task_id outcome).output = ""
        ∧ (execute_task role task_id outcome).artifacts = []) := by
  cases outcome with
  | ok r =>
    exact ⟨fun _ => rfl, fun h => by simp [execute_task] at h⟩
  | error msg =>
    exact ⟨fun h => by simp [execute_task] at h,
      fun _ => ⟨by simp [execute_task], rfl, rfl⟩⟩

/-- Witness for C10 at concrete outcomes. -/
theorem C10_execute_task_invariant_witness :
    (execute_task .pm "t1" (.error "boom")).success = false
  ∧ (execute_task .pm "t1" (.error "boom")).errors ≠ none
  ∧ (execute_task .pm "t1" (.error "boom")).output = ""
  ∧ (execute_task .pm "t1" (.error "boom")).artifacts = []
  ∧ (execute_task .pm "t1" (.ok ⟨"done", ["a.md"]⟩)).errors = none := by
  refine ⟨rfl, ?_, ?_, ?_, ?_⟩
  · exact ((C10_execute_task_invariant .pm "t1" (.error "boom")).2 rfl).1
  · exact ((C10_execute_task_invariant .pm "t1" (.error "boom")).2 rfl).2.1
  · exact ((C10_execute_task_invariant .pm "t1" (.error "boom")).2 rfl).2.2
  · exact (C10_execute_task_invariant .pm "t1" (.ok ⟨"done", ["a.md"]⟩)).1 rfl

/-- C9: for a phase whose name contains "test" (case-insensitively) and
whose result output contains "error" (the source lower-cases the output
before scanning), the post-execution evaluation chain of
`_execute_phase` leaves `requires_retry = true`, whatever the success
flag: via the testing-phase bug scan when the result is successful and
via the explicit-failure branch when it is not. -/
theorem C9_testing_error_retry (phase_name : String) (r : AgentResult) (dev_ok : Bool)
    (fs : List String)
    (hname : strContains (lowerStr phase_name) "test" = true)
    (hout : strContains (lowerStr r.output) "error" = true) :
    (evaluate_result phase_name r dev_ok fs).requires_retry = true := by
  by_cases hs : r.success = true
  · have htest : is_testing_phase phase_name = true := by
      simp only [is_testing_phase, testing_keywords, List.any_eq_true]
      exact ⟨"test", by simp, hname⟩
    have hbug : "errors found in testing" ∈ analyze_test_results r fs := by
      simp only [analyze_test_results, List.mem_append]
      left
      simp only [List.mem_filterMap]
      refine ⟨("error", "errors found in testing"), by simp [bug_indicators], ?_⟩
      simp [hout]
    have hne : analyze_test_results r fs ≠ [] := List.ne_nil_of_mem hbug
    simp only [evaluate_result]
    rw [if_neg (by simp [hs]), if_pos htest, if_neg hne]
    rfl
  · simp only [evaluate_result]
    rw [if_pos (by simpa using hs)]
    rfl

/-- A successful testing result whose output mentions an error. -/
def r9ok : AgentResult :=
  { role := .tester, success := true, output := "Error: 2 tests failed" }

/-- A failed testing result whose output mentions an error. -/
def r9fail : AgentResult :=
  { role := .tester, success := false, output := "error while running", errors := some "x" }

/-- Witness for C9: both a successful and a failed testing result with
an "error" in the output come out flagged. -/
theorem C9_testing_error_retry_witness :
    strContains (lowerStr "integration_test") "test" = true
  ∧ strContains (lowerStr r9ok.output) "error" = true
  ∧ (evaluate_result "integration_test" r9ok true []).requires_retry = true
  ∧ (evaluate_result "integration_test" r9fail true []).requires_retry = true := by
  refine ⟨by decide, by decide, ?_, ?_⟩
  · exact C9_testing_error_retry "integration_test" r9ok true [] (by decide) (by decide)
  · exact C9_testing_error_retry "integration_test" r9fail true [] (by decide) (by decide)

/-- C4 counterexample: `_define_workflow_blocks` does not implement a
first-match-wins partition.  On the phase list `["design_test"]` the
phase matches both the design keywords and the development-testing
keywords and is emitted in both blocks, so the blocks are not pairwise
disjoint and the phase is not assigned to exactly one block. -/
theorem C4_overlap_counterexample :
    define_workflow_blocks ["design_test"]
      = [("design", ["design_test"]), ("development_testing", ["design_test"])] := by
  decide

/-- C4 (amended): the planner places each phase in every block whose keyword
category it matches — so blocks may overlap — and unmatched phases go to
`misc`; hence a phase appears in some emitted block iff it is in the
input list (the union of the blocks is exactly the full phase set). -/
theorem C4_blocks_cover (phases : List String) (p : String) :
    (∃ b, b ∈ define_workflow_blocks phases ∧ p ∈ b.2) ↔ p ∈ phases := by
  constructor
  · rintro ⟨b, hb, hp⟩
    simp only [define_workflow_blocks, List.mem_append] at hb
    rcases hb with ((((h1 | h1) | h1) | h1) | h1) <;>
      · split at h1
        · simp at h1
        · simp only [List.mem_singleton] at h1
          subst h1
          exact (List.mem_filter.mp hp).1
  · intro hp
    by_cases h1 : matchesAnyKw p planning_keywords = true
    · refine ⟨("planning_no_retry", phases.filter (fun q => matchesAnyKw q planning_keywords)),
        ?_, List.mem_filter.mpr ⟨hp, h1⟩⟩
      simp only [define_workflow_blocks, List.mem_append]
      left; left; left; left
      rw [if_neg (List.ne_nil_of_mem (List.mem_filter.mpr ⟨hp, h1⟩))]
      simp
    · by_cases h2 : matchesAnyKw p design_keywords = true
      · refine ⟨("design", phases.filter (fun q => matchesAnyKw q design_keywords)),
          ?_, List.mem_filter.mpr ⟨hp, h2⟩⟩
        simp only [define_workflow_blocks, List.mem_append]
        left; left; left; right
        rw [if_neg (List.ne_nil_of_mem (List.mem_filter.mpr ⟨hp, h2⟩))]
        simp
      · by_cases h3 : matchesAnyKw p dev_test_keywords = true
        · refine ⟨("development_testing", phases.filter (fun q => matchesAnyKw q dev_test_keywords)),
            ?_, List.mem_filter.mpr ⟨hp, h3⟩⟩
          simp only [define_workflow_blocks, List.mem_append]
          left; left; right
          rw [if_neg (List.ne_nil_of_mem (List.mem_filter.mpr ⟨hp, h3⟩))]
          simp
        · by_cases h4 : matchesAnyKw p security_keywords = true
          · refine ⟨("security", phases.filter (fun q => matchesAnyKw q security_keywords)),
              ?_, List.mem_filter.mpr ⟨hp, h4⟩⟩
            simp only [define_workflow_blocks, List.mem_append]
            left; right
            rw [if_neg (List.ne_nil_of_mem (List.mem_filter.mpr ⟨hp, h4⟩))]
            simp
          · have hm : (!(matchesAnyKw p planning_keywords || matchesAnyKw p design_keywords
                || matchesAnyKw p dev_test_keywords || matchesAnyKw p security_keywords)) = true := by
              simp only [Bool.not_eq_true'] at h1 h2 h3 h4
              simp [h1, h2, h3, h4]
            refine ⟨("misc", phases.filter (fun q => !(matchesAnyKw q planning_keywords
                || matchesAnyKw q design_keywords || matchesAnyKw q dev_test_keywords
                || matchesAnyKw q security_keywords))), ?_, List.mem_filter.mpr ⟨hp, hm⟩⟩
            simp only [define_workflow_blocks, List.mem_append]
            right
            rw [if_neg (List.ne_nil_of_mem (List.mem_filter.mpr ⟨hp, hm⟩))]
            simp

deriving instance DecidableEq for Except

/-- C2 counterexample: in the retry scenario (retryable block
`[development, testing]`, `testing` fails on attempt 1 and both phases
succeed on attempt 2) the final result map holds successful results for
both phases and `development`'s stored output is the attempt-2 output,
but the retry trackers record zero history entries — not exactly one —
even though exactly one block retry happened (one 2-second delay was
logged): the block-retry path never calls `add_retry_attempt`. -/
theorem C2_retry_history_counterexample :
    (execute_workflow envC2).toOption.map (fun s =>
        ((assocLookup s.results "development").map (fun r => (r.success, r.output)),
         (assocLookup s.results "testing").map (fun r => r.success),
         (assocLookup s.trackers "development").map (fun t => t.retry_history.length),
         (assocLookup s.trackers "testing").map (fun t => t.retry_history.length),
         s.delays))
      = some (some (true, "ok A2"), some true, some 0, some 0, [2]) := by
  decide

/-- C2 (amended): in the same scenario the workflow completes with
successful results for both phases, `development`'s attempt-1 result
having been discarded and replaced whole by the attempt-2 result — the
final state is exactly the attempt-2 results, one logged 2-second retry
delay, and retry trackers that are still in their initial state (the
block-level retry path does not write to the `PhaseRetryTracker`s, so
their history stays empty). -/
theorem C2_retry_replaces_results :
    execute_workflow envC2
      = .ok { results := [("development", resultOk "ok A2"), ("testing", resultOk "all good")],
              trackers := [("development", { phase_name := "development" }),
                           ("testing", { phase_name := "testing" })],
              counter := 4, delays := [2] } := by
  decide

/-- C5 counterexample: a block whose single phase `testing` is skipped
on its turn because its declared dependency `development` has no stored
result ends the attempt with that phase's result absent, yet the attempt
is not recorded as a block failure: the whole workflow completes
successfully with an empty result map, no retry delay and the attempt
counter untouched. -/
theorem C5_dep_skip_counterexample :
    execute_workflow envC5
      = .ok { results := [], trackers := [("testing", { phase_name := "testing" })],
              counter := 0, delays := [] } := by
  decide

/-- C5 (amended): a block attempt is recorded as a failure — returning
the failing phase to the retry machinery — exactly for a phase that was
actually dispatched: the recorded failing phase is a member of the
block, its phase info exists, and either no task was found for it or it
was executed and its stored result has `success = false`.  A phase left
absent because the dependency gate (or a missing phase info) skipped it
does not make the attempt fail. -/
theorem C5_attempt_failure_shape (env : ExecEnv) :
    ∀ (phases : List String) (st st2 : ExecState) (fp : String),
      run_attempt env phases st = (st2, some fp) →
      fp ∈ phases ∧ (get_phase_info env.phases fp).isSome = true
        ∧ (env.hasTask fp = false
            ∨ (assocLookup st2.results fp).map (fun r => r.success) = some false) := by
  intro phases
  induction phases with
  | nil => intro st st2 fp h; simp [run_attempt] at h
  | cons p ps ih =>
    intro st st2 fp h
    simp only [run_attempt] at h
    cases hinfo : get_phase_info env.phases p with
    | none =>
      simp only [hinfo] at h
      obtain ⟨h1, h2, h3⟩ := ih st st2 fp h
      exact ⟨List.mem_cons_of_mem _ h1, h2, h3⟩
    | some info =>
      simp only [hinfo] at h
      by_cases hdep : check_dependencies info.dependencies st.results = false
      · rw [if_pos hdep] at h
        obtain ⟨h1, h2, h3⟩ := ih st st2 fp h
        exact ⟨List.mem_cons_of_mem _ h1, h2, h3⟩
      · rw [if_neg hdep] at h
        by_cases htask : env.hasTask p = true
        · rw [if_pos htask] at h
          simp only [execute_phase_lookup] at h
          by_cases hsucc : (evaluate_result p (env.exec st.counter p) (env.devOk st.counter)
              (env.reportBugs st.counter)).success = true
          · rw [if_pos hsucc] at h
            obtain ⟨h1, h2, h3⟩ := ih _ st2 fp h
            exact ⟨List.mem_cons_of_mem _ h1, h2, h3⟩
          · rw [if_neg hsucc] at h
            simp only [Prod.mk.injEq, Option.some.injEq] at h
            obtain ⟨h1, h2⟩ := h
            subst h2
            refine ⟨List.mem_cons_self _ _, by simp [hinfo], Or.inr ?_⟩
            rw [← h1, execute_phase_lookup]
            cases hb : (evaluate_result p (env.exec st.counter p) (env.devOk st.counter)
                (env.reportBugs st.counter)).success
            · simp [hb]
            · exact absurd hb hsucc
        · rw [if_neg htask] at h
          simp only [Prod.mk.injEq, Option.some.injEq] at h
          obtain ⟨h1, h2⟩ := h
          subst h2
          refine ⟨List.mem_cons_self _ _, by simp [hinfo], Or.inl ?_⟩
          cases hb : env.hasTask p
          · rfl
          · exact absurd hb htask

/-- Witness for C5 (amended) at a concrete failing attempt: the
missing-task phase `misc1` of `envW`. -/
theorem C5_attempt_failure_shape_witness :
    "misc1" ∈ (["misc1"] : List String)
  ∧ (get_phase_info envW.phases "misc1").isSome = true
  ∧ (envW.hasTask "misc1" = false
      ∨ (assocLookup stInit.results "misc1").map (fun r => r.success) = some false) :=
  C5_attempt_failure_shape envW ["misc1"] stInit stInit "misc1" rfl

/-- C1: when a retryable block's attempt fails and attempts remain, the
executor clears from the result map the entry of every phase of the
block and of no other phase, logs the fixed 2-second delay, and
continues as `run_block` over the full block phase list — restarting
from the block's first phase, not from the failed one. -/
theorem C1_block_retry_clears (env : ExecEnv) (bn : String) (bp : List String) (n : Nat)
    (st st1 : ExecState) (fp : String)
    (hfail : run_attempt env bp st = (st1, some fp)) :
    run_block env bn false bp (n + 2) st
      = run_block env bn false bp (n + 1)
          { st1 with results := clear_block_results bp st1.results,
                     delays := st1.delays ++ [2] }
  ∧ (∀ p ∈ bp, assocLookup (clear_block_results bp st1.results) p = none)
  ∧ (∀ q, q ∉ bp → assocLookup (clear_block_results bp st1.results) q
      = assocLookup st1.results q) := by
  refine ⟨?_, ?_, ?_⟩
  · rw [show n + 2 = (n + 1) + 1 from rfl, run_block]
    simp only [hfail]
    simp
  · intro p hp
    rw [clear_block_results_lookup]
    simp [hp]
  · intro q hq
    rw [clear_block_results_lookup]
    simp [hq]

/-- Witness for C1 at a concrete failing attempt on `envW`. -/
theorem C1_block_retry_clears_witness :
    run_attempt envW ["misc1"] stInit = (stInit, some "misc1")
  ∧ run_block envW "misc" false ["misc1"] 2 stInit
      = run_block envW "misc" false ["misc1"] 1
          { stInit with results := clear_block_results ["misc1"] stInit.results,
                        delays := stInit.delays ++ [2] }
  ∧ assocLookup (clear_block_results ["misc1"] stInit.results) "misc1" = none
  ∧ assocLookup (clear_block_results ["misc1"] stInit.results) "keep"
      = assocLookup stInit.results "keep" := by
  refine ⟨rfl, ?_, ?_, ?_⟩
  · exact (C1_block_retry_clears envW "misc" ["misc1"] 0 stInit stInit "misc1" rfl).1
  · exact (C1_block_retry_clears envW "misc" ["misc1"] 0 stInit stInit "misc1" rfl).2.1
      "misc1" (by simp)
  · exact (C1_block_retry_clears envW "misc" ["misc1"] 0 stInit stInit "misc1" rfl).2.2
      "keep" (by simp)

/-- C6: the evaluator's `requires_retry` flag is advisory for the block
loop.  The evaluation chain never changes the success flag, and for a
dispatched phase the attempt fails at that phase iff the executed
result's success flag is false — a successful result flagged
`requires_retry = true` lets the attempt continue with the remaining
phases exactly as an unflagged one would. -/
theorem C6_requires_retry_advisory (env : ExecEnv) (p : String) (ps : List String)
    (st : ExecState) (info : TemplatePhase)
    (hinfo : get_phase_info env.phases p = some info)
    (hdep : check_dependencies info.dependencies st.results = true)
    (htask : env.hasTask p = true) :
    (evaluate_result p (env.exec st.counter p) (env.devOk st.counter)
        (env.reportBugs st.counter)).success = (env.exec st.counter p).success
  ∧ ((env.exec st.counter p).success = true
      → run_attempt env (p :: ps) st = run_attempt env ps (execute_phase env st p))
  ∧ ((env.exec st.counter p).success = false
      → run_attempt env (p :: ps) st = (execute_phase env st p, some p)) := by
  refine ⟨evaluate_result_success _ _ _ _, ?_, ?_⟩
  · intro hs
    simp only [run_attempt, hinfo]
    rw [if_neg (by simp [hdep]), if_pos htask]
    simp only [execute_phase_lookup]
    rw [if_pos (by rw [evaluate_result_success]; exact hs)]
  · intro hs
    simp only [run_attempt, hinfo]
    rw [if_neg (by simp [hdep]), if_pos htask]
    simp only [execute_phase_lookup]
    rw [if_neg (by rw [evaluate_result_success, hs]; simp)]

/-- Witness for C6: in `envW6` the testing phase succeeds with an
"error" in its output, so its stored result has `success = true` and
`requires_retry = true`, and the attempt still continues past it. -/
theorem C6_requires_retry_advisory_witness :
    run_attempt envW6 ["testing"] stInit
      = run_attempt envW6 [] (execute_phase envW6 stInit "testing")
  ∧ (assocLookup (execute_phase envW6 stInit "testing").results "testing").map
      (fun r => (r.success, r.requires_retry)) = some (true, true) := by
  refine ⟨?_, by decide⟩
  exact (C6_requires_retry_advisory envW6 "testing" [] stInit
    { phase := "testing", agent := "tester" } rfl rfl rfl).2.1 rfl

/-- C3: the workflow aborts exactly on failing block attempts under the
abort policy.  (i) when a block's retry loop returns successfully the
executor proceeds to the next block; (ii) a no-retry block raises on its
first failing attempt with an error naming the block and the failing
phase, later blocks never run, and every result-map entry at raise time
either predates the block or belongs to the block itself; (iii) the last
allowed attempt of a retryable block failing raises the
attempts-exhausted error; (iv) conversely, every abort of a block loop
stems from a failing attempt and is the no-retry error iff the block is
marked no-retry, the exhaustion error otherwise. -/
theorem C3_abort_policy (env : ExecEnv) (bn : String) (bp : List String)
    (rest : List (String × List String)) (st : ExecState) :
    (∀ st1, run_block env bn (strContains bn "no_retry") bp
        (if strContains bn "no_retry" then 1 else 5) st = .ok st1
      → run_blocks env ((bn, bp) :: rest) st = run_blocks env rest st1)
  ∧ (∀ st1 fp, strContains bn "no_retry" = true → run_attempt env bp st = (st1, some fp)
      → run_blocks env ((bn, bp) :: rest) st = .error (.noRetry bn fp, st1)
        ∧ ∀ q, (assocLookup st1.results q).isSome = true
            → (assocLookup st.results q).isSome = true ∨ q ∈ bp)
  ∧ (∀ st1 fp, run_attempt env bp st = (st1, some fp)
      → run_block env bn false bp 1 st = .error (.exhausted bn fp, st1))
  ∧ (∀ nr fuel e stE, run_block env bn nr bp fuel st = .error (e, stE)
      → ∃ st0 fp, run_attempt env bp st0 = (stE, some fp)
        ∧ ((nr = true ∧ e = .noRetry bn fp) ∨ (nr = false ∧ e = .exhausted bn fp))) := by
  refine ⟨?_, ?_, ?_, ?_⟩
  · intro st1 h
    rw [run_blocks, h]
  · intro st1 fp hnr hatt
    constructor
    · rw [run_blocks, hnr]
      simp only [if_true]
      rw [show (1 : Nat) = 0 + 1 from rfl, run_block]
      simp only [hatt, if_true]
    · intro q hq
      exact run_attempt_results_isSome env bp st st1 (some fp) q hatt hq
  · intro st1 fp hatt
    rw [show (1 : Nat) = 0 + 1 from rfl, run_block]
    simp only [hatt]
    simp
  · intro nr fuel e stE h
    exact run_block_error_shape env bn nr bp fuel st e stE h

/-- Witness for C3: on `envW` a no-retry block whose only phase fails
makes the whole workflow raise the no-retry error immediately, with no
further block entry in the result map. -/
theorem C3_abort_policy_witness :
    run_blocks envW [("planning_no_retry", ["misc1"])] stInit
      = .error (.noRetry "planning_no_retry" "misc1", stInit) :=
  ((C3_abort_policy envW "planning_no_retry" ["misc1"] [] stInit).2.1 stInit "misc1"
    (by decide) rfl).1

/-- C8 counterexample: a template whose `planning` phase has no entry in
the task catalog compiles to an empty task list (the loader skips the
phase and proceeds), but executing the workflow then fails hard: the
missing task makes the block attempt fail at `planning`, and since the
planning block is no-retry the whole workflow aborts — the phase is not
simply skipped at execution time. -/
theorem C8_missing_task_counterexample :
    create_agent_tasks ["pm"] [] tplPhasesC8 = []
  ∧ execute_workflow envC8
      = .error (.noRetry "planning_no_retry" "planning",
          { results := [], trackers := [("planning", { phase_name := "planning" })],
            counter := 0, delays := [] }) := by
  exact ⟨rfl, by decide⟩

/-- C8 (amended): a phase with no matching task-catalog entry or with an
unavailable executor role is dropped at task-compilation time with only
a warning (compilation continues with the remaining phases), but at
execution time a dispatched phase for which no task is found makes the
block attempt fail with that phase recorded as the failing phase — it is
treated as a hard failure of its block, not skipped. -/
theorem C8_missing_task_policy (roles : List String) (ph : TemplatePhase)
    (rest : List TemplatePhase) (catalog : List (String × TaskInfo)) (env : ExecEnv)
    (p : String) (ps : List String) (st : ExecState) (info : TemplatePhase) :
    (assocLookup catalog ph.phase = none
      → create_agent_tasks roles catalog (ph :: rest) = create_agent_tasks roles catalog rest)
  ∧ (roles.contains ph.agent = false
      → create_agent_tasks roles catalog (ph :: rest) = create_agent_tasks roles catalog rest)
  ∧ (env.hasTask p = false → get_phase_info env.phases p = some info
      → check_dependencies info.dependencies st.results = true
      → run_attempt env (p :: ps) st = (st, some p)) := by
  refine ⟨?_, ?_, ?_⟩
  · intro h
    simp only [create_agent_tasks, h]
  · intro h
    simp only [create_agent_tasks]
    cases hl : assocLookup catalog ph.phase with
    | none => rfl
    | some ti => dsimp only; rw [if_pos h]
  · intro htask hinfo hdep
    simp only [run_attempt, hinfo]
    rw [if_neg (by simp [hdep]), if_neg (by simp [htask])]

/-- Witness for C8 (amended) on the concrete `envC8` template. -/
theorem C8_missing_task_policy_witness :
    create_agent_tasks ["pm"] [] tplPhasesC8 = create_agent_tasks ["pm"] [] []
  ∧ run_attempt envC8 ["planning"] stInit = (stInit, some "planning") := by
  refine ⟨?_, ?_⟩
  · exact (C8_missing_task_policy ["pm"] { phase := "planning", agent := "pm" } [] [] envC8
      "planning" [] stInit { phase := "planning", agent := "pm" }).1 rfl
  · exact (C8_missing_task_policy ["pm"] { phase := "planning", agent := "pm" } [] [] envC8
      "planning" [] stInit { phase := "planning", agent := "pm" }).2.2 (by decide) rfl rfl
